import Mathlib

/-!
Verification of the transaction consistency and resilience subsystem of
synapse-core: a shallow embedding in Lean 4 of the database pool router
(src/db/pool_manager.rs), the idempotency guard (src/middleware/idempotency.rs),
the transaction store queries (src/db/queries.rs), the settlement engine
(src/services/settlement.rs), the dead-letter requeue path
(src/services/transaction_processor.rs, src/handlers/dlq.rs) and the callback
ingestion and validation path (src/handlers/webhook.rs, src/validation/mod.rs).

Modelling conventions:
* UUIDs are modelled as `Nat` identifiers, `DateTime<Utc>` timestamps as `Nat`,
  and `BigDecimal` (arbitrary-precision decimal, exact arithmetic) as `ℚ`.
* Each SQL statement executed against the pool is one atomic state transition
  on an explicit `Db` value; statements grouped in one `sqlx` transaction
  (`pool.begin()` .. `commit()`) are modelled as a single Lean function, while
  statements that the source runs back-to-back on the bare pool are modelled
  as separate steps so that intermediate states are observable.
* `Utc::now()` and `Uuid::new_v4()` are ambient effects in the source; they are
  passed in as explicit `now` / fresh-id arguments.
* The audit-log side table written by `update_transactions_settlement` is not
  modelled: no claim mentions it and it touches no transaction row.
-/

namespace SynapseCore

/-- Decidable equality for `Except`, needed to evaluate embedded fallible
operations on concrete inputs. -/
instance {ε α : Type} [DecidableEq ε] [DecidableEq α] : DecidableEq (Except ε α) :=
  fun x y =>
    match x, y with
    | .ok a, .ok b =>
      if h : a = b then isTrue (by rw [h]) else isFalse (fun hh => by cases hh; exact h rfl)
    | .error a, .error b =>
      if h : a = b then isTrue (by rw [h]) else isFalse (fun hh => by cases hh; exact h rfl)
    | .ok _, .error _ => isFalse (fun hh => by cases hh)
    | .error _, .ok _ => isFalse (fun hh => by cases hh)

/-- One row of the `transactions` table (src/db/models.rs, `Transaction`). -/
structure Transaction where
  id : Nat
  stellar_account : String
  amount : ℚ
  asset_code : String
  status : String
  created_at : Nat
  updated_at : Nat
  anchor_transaction_id : Option String
  callback_type : Option String
  callback_status : Option String
  settlement_id : Option Nat
  memo : Option String
  memo_type : Option String
  metadata : Option String
deriving DecidableEq, Repr

/-- One row of the `settlements` table (src/db/models.rs, `Settlement`). -/
structure Settlement where
  id : Nat
  asset_code : String
  total_amount : ℚ
  tx_count : Nat
  period_start : Nat
  period_end : Nat
  status : String
  created_at : Nat
  updated_at : Nat
deriving DecidableEq, Repr

/-- One row of the `transaction_dlq` table (src/db/models.rs, `TransactionDlq`). -/
structure TransactionDlq where
  id : Nat
  transaction_id : Nat
  stellar_account : String
  amount : ℚ
  asset_code : String
  anchor_transaction_id : Option String
  error_reason : String
  stack_trace : Option String
  retry_count : Nat
  original_created_at : Nat
  moved_to_dlq_at : Nat
  last_retry_at : Option Nat
deriving DecidableEq, Repr

/-- The relational store: the three tables the core subsystem touches. -/
structure Db where
  transactions : List Transaction
  settlements : List Settlement
  transaction_dlq : List TransactionDlq
deriving DecidableEq, Repr

/-- The sqlx error cases the embedded queries can surface. -/
inductive SqlxError where
  | RowNotFound
  | UniqueViolation
deriving DecidableEq, Repr

/-- Message text sqlx attaches to each error (used by `e.to_string()` call sites). -/
def sqlxErrorMessage : SqlxError → String
  | .RowNotFound => "no rows returned by a query that expected to return at least one row"
  | .UniqueViolation => "duplicate key value violates unique constraint"

/-- Point lookup by primary key, `SELECT * FROM transactions WHERE id = $1`
(src/db/queries.rs, `get_transaction`), as the row it returns if any. -/
def lookupTx (db : Db) (id : Nat) : Option Transaction :=
  db.transactions.find? (fun t => t.id == id)

/-- Key of the `WHERE` clause of `get_unsettled_transactions`
(src/db/queries.rs lines 110-118): `status = 'completed' AND settlement_id IS
NULL AND asset_code = $1 AND updated_at <= $2`. -/
def isUnsettledCandidate (asset_code : String) (end_time : Nat) (t : Transaction) : Bool :=
  t.status == "completed" && t.settlement_id == none &&
    t.asset_code == asset_code && decide (t.updated_at ≤ end_time)

/-- Locking scan of src/db/queries.rs `get_unsettled_transactions`. The
`FOR UPDATE` row lock makes the enclosing sqlx transaction atomic with
respect to the selected rows; atomicity is reflected by modelling the whole
enclosing transaction as one step. -/
def get_unsettled_transactions (db : Db) (asset_code : String) (end_time : Nat) :
    List Transaction :=
  db.transactions.filter (isUnsettledCandidate asset_code end_time)

/-- Update of src/db/queries.rs `update_transactions_settlement`:
`UPDATE transactions SET settlement_id = $1, updated_at = NOW() WHERE id = ANY($2)`. -/
def update_transactions_settlement (db : Db) (tx_ids : List Nat) (settlement_id : Nat)
    (now : Nat) : Db :=
  { db with
    transactions := db.transactions.map (fun t =>
      if t.id ∈ tx_ids then
        { t with settlement_id := some settlement_id, updated_at := now }
      else t) }

/-- Insert of src/db/queries.rs `insert_settlement` (runs inside the
settlement's sqlx transaction). -/
def insert_settlement (db : Db) (s : Settlement) : Db :=
  { db with settlements := db.settlements ++ [s] }

/-- Insert of src/db/queries.rs `insert_transaction`; the `id` column is the
primary key, so a duplicate identifier surfaces as a unique-constraint error
and writes nothing. -/
def insert_transaction (db : Db) (tx : Transaction) : Except SqlxError Db :=
  if db.transactions.any (fun t => t.id == tx.id) then
    .error .UniqueViolation
  else
    .ok { db with transactions := db.transactions ++ [tx] }

/-- Settlement engine, src/services/settlement.rs `SettlementService::settle_asset`.
The whole body runs inside one sqlx transaction (`pool.begin()` .. `commit()`,
with `FOR UPDATE` row locks on the candidate rows), so it is one atomic step:
it returns the created settlement (or `none` on the empty-set rollback branch)
together with the post-state. `now` stands for `Utc::now()` and `new_id` for
`Uuid::new_v4()`. -/
def settle_asset (db : Db) (asset_code : String) (now : Nat) (new_id : Nat) :
    Option Settlement × Db :=
  let end_time := now
  let unsettled := get_unsettled_transactions db asset_code end_time
  if unsettled.isEmpty then
    (none, db)
  else
    let tx_count := unsettled.length
    let total_amount : ℚ := (unsettled.map (fun t => t.amount)).foldl (· + ·) 0
    let period_start := ((unsettled.map (fun t => t.created_at)).min?).getD end_time
    let period_end := ((unsettled.map (fun t => t.updated_at)).max?).getD end_time
    let settlement : Settlement :=
      { id := new_id, asset_code := asset_code, total_amount := total_amount,
        tx_count := tx_count, period_start := period_start, period_end := period_end,
        status := "completed", created_at := now, updated_at := now }
    let db1 := insert_settlement db settlement
    let tx_ids := unsettled.map (fun t => t.id)
    let db2 := update_transactions_settlement db1 tx_ids new_id now
    (some settlement, db2)

/-- src/services/transaction_processor.rs `TransactionProcessor::process_transaction`:
`UPDATE transactions SET status = 'completed', updated_at = NOW() WHERE id = $1`. -/
def process_transaction (db : Db) (tx_id : Nat) (now : Nat) : Db :=
  { db with
    transactions := db.transactions.map (fun t =>
      if t.id = tx_id then { t with status := "completed", updated_at := now } else t) }

/-- First statement of `TransactionProcessor::requeue_dlq`:
`SELECT transaction_id FROM transaction_dlq WHERE id = $1` via `fetch_one`
(errors with `RowNotFound` when no row matches). -/
def requeue_fetch_transaction_id (db : Db) (dlq_id : Nat) : Option Nat :=
  (db.transaction_dlq.find? (fun e => e.id == dlq_id)).map (fun e => e.transaction_id)

/-- Second statement of `requeue_dlq`:
`UPDATE transactions SET status = 'pending', updated_at = NOW() WHERE id = $1`. -/
def requeue_set_pending (db : Db) (tx_id : Nat) (now : Nat) : Db :=
  { db with
    transactions := db.transactions.map (fun t =>
      if t.id = tx_id then { t with status := "pending", updated_at := now } else t) }

/-- Third statement of `requeue_dlq`: `DELETE FROM transaction_dlq WHERE id = $1`. -/
def requeue_delete_entry (db : Db) (dlq_id : Nat) : Db :=
  { db with transaction_dlq := db.transaction_dlq.filter (fun e => !(e.id == dlq_id)) }

/-- src/services/transaction_processor.rs `TransactionProcessor::requeue_dlq`, run to
completion. The three statements are executed back-to-back on the bare pool —
the source opens no sqlx transaction around them. -/
def requeue_dlq (db : Db) (dlq_id : Nat) (now : Nat) : Except SqlxError Db :=
  match requeue_fetch_transaction_id db dlq_id with
  | none => .error .RowNotFound
  | some tx_id => .ok (requeue_delete_entry (requeue_set_pending db tx_id now) dlq_id)

/-- State of the store after the first `completed` of the three statements of
`requeue_dlq` have executed. Because the source wraps the statements in no
sqlx transaction, each such intermediate state is a real, durable state of
the store (what a crash between statements leaves behind). -/
def requeue_dlq_steps (db : Db) (dlq_id : Nat) (now : Nat) (completed : Nat) : Db :=
  match requeue_fetch_transaction_id db dlq_id with
  | none => db
  | some tx_id =>
    if completed ≤ 1 then db
    else if completed = 2 then requeue_set_pending db tx_id now
    else requeue_delete_entry (requeue_set_pending db tx_id now) dlq_id

/-! Connection router, src/db/pool_manager.rs. The two pools are identified
abstractly; `PoolManager.replica` mirrors the `Option<Arc<PgPool>>` field. -/

/-- Intent of a query, src/db/pool_manager.rs `QueryIntent`. -/
inductive QueryIntent where
  | Read
  | Write
deriving DecidableEq, Repr

/-- Which connection pool a call returns. -/
inductive PoolId where
  | primary
  | replica
deriving DecidableEq, Repr

/-- src/db/pool_manager.rs `PoolManager`: a primary pool and an optional
replica pool. The pools themselves are opaque; only their identity matters. -/
structure PoolManager where
  replica : Option Unit
deriving DecidableEq, Repr

/-- src/db/pool_manager.rs `PoolManager::get_pool` (lines 58-63): `Write`
returns the primary; `Read` returns the replica when one is configured,
`unwrap_or` the primary. The function takes no health information. -/
def get_pool (m : PoolManager) (intent : QueryIntent) : PoolId :=
  match intent with
  | .Write => .primary
  | .Read => (m.replica.map (fun _ => PoolId.replica)).getD .primary

/-- Result of src/db/pool_manager.rs `PoolManager::health_check`. -/
structure HealthCheckResult where
  primary : Bool
  replica : Bool
deriving DecidableEq, Repr

/-- src/db/pool_manager.rs `PoolManager::health_check` (lines 73-92): probes
each pool with `SELECT 1`; with no replica configured the replica flag is
reported healthy. The probe outcomes (`is_ok` of each liveness query) are
inputs; the result is returned to the caller and stored nowhere. -/
def health_check (m : PoolManager) (primary_probe_ok replica_probe_ok : Bool) :
    HealthCheckResult :=
  { primary := primary_probe_ok,
    replica := if m.replica.isSome then replica_probe_ok else true }

/-! Idempotency guard, src/middleware/idempotency.rs. The Redis cache is a
key-value association list; values are modelled semantically (the
`"PROCESSING"` sentinel string and the serde-serialized `CachedResponse`
are distinct constructors, which is faithful because a JSON object never
equals the string `"PROCESSING"`). -/

/-- One Redis value with its TTL in seconds. -/
inductive CacheValue where
  | processing
  | completed (status : Nat) (body : String)
deriving DecidableEq, Repr

/-- The shared Redis cache: key-value pairs with a TTL (seconds). -/
abbrev Cache := List (String × CacheValue × Nat)

/-- Redis `GET`. -/
def cacheGet (c : Cache) (k : String) : Option CacheValue :=
  (c.find? (fun e => e.1 == k)).map (fun e => e.2.1)

/-- Redis `SET` with expiry (`set_ex`): overwrites any existing value. -/
def cacheSetEx (c : Cache) (k : String) (v : CacheValue) (ttl : Nat) : Cache :=
  (k, v, ttl) :: c.filter (fun e => !(e.1 == k))

/-- Redis `DEL`. -/
def cacheDel (c : Cache) (k : String) : Cache :=
  c.filter (fun e => !(e.1 == k))

/-- Key namespace of src/middleware/idempotency.rs (`IDEMPOTENCY_PREFIX`). -/
def idempotencyKey (idempotency_key : String) : String :=
  "idempotency:" ++ idempotency_key

/-- src/middleware/idempotency.rs `IdempotencyStatus`. -/
inductive IdempotencyStatus where
  | New
  | Processing
  | Completed (status : Nat) (body : String)
deriving DecidableEq, Repr

/-- src/middleware/idempotency.rs `IdempotencyService::check_idempotency`
(lines 34-57), run without interference: `GET` the key; if present, report
`Processing` or the cached completed response; if absent, `SET` the
`PROCESSING` marker with a 300-second TTL and report `New`. -/
def check_idempotency (c : Cache) (key : String) : IdempotencyStatus × Cache :=
  match cacheGet c (idempotencyKey key) with
  | some .processing => (.Processing, c)
  | some (.completed s b) => (.Completed s b, c)
  | none => (.New, cacheSetEx c (idempotencyKey key) .processing 300)

/-- Program counter of one in-flight `check_idempotency` call. The `await` on
the Redis round-trips splits the body at the `GET`: after the `GET` returns,
the branch on the value and the conditional `SET` run as the next step. -/
inductive SessionState where
  | ready
  | gotten (v : Option CacheValue)
  | finished (r : IdempotencyStatus)
deriving DecidableEq, Repr

/-- One atomic Redis round-trip of a `check_idempotency` session: the `GET`,
or (when the `GET` saw no value) the `SET` of the `PROCESSING` marker. -/
def sessionStep (c : Cache) (key : String) : SessionState → SessionState × Cache
  | .ready => (.gotten (cacheGet c (idempotencyKey key)), c)
  | .gotten none => (.finished .New, cacheSetEx c (idempotencyKey key) .processing 300)
  | .gotten (some .processing) => (.finished .Processing, c)
  | .gotten (some (.completed s b)) => (.finished (.Completed s b), c)
  | .finished r => (.finished r, c)

/-- Two `check_idempotency` sessions racing on the same key: the schedule picks
which session performs its next Redis round-trip. -/
def runRace (key : String) : List Bool → Cache × SessionState × SessionState →
    Cache × SessionState × SessionState
  | [], st => st
  | pick :: rest, (c, a, b) =>
    if pick then
      let (a', c') := sessionStep c key a
      runRace key rest (c', a', b)
    else
      let (b', c') := sessionStep c key b
      runRace key rest (c', a, b')

/-- src/middleware/idempotency.rs `IdempotencyService::store_response`
(lines 60-75): overwrite the marker with the completed response,
24-hour TTL (`IDEMPOTENCY_TTL`). -/
def store_response (c : Cache) (key : String) (status : Nat) (body : String) : Cache :=
  cacheSetEx c (idempotencyKey key) (.completed status body) 86400

/-- src/middleware/idempotency.rs `IdempotencyService::release_lock`
(lines 78-83): delete the marker outright. -/
def release_lock (c : Cache) (key : String) : Cache :=
  cacheDel c (idempotencyKey key)

/-- An HTTP response (status code and body). -/
structure Response where
  status : Nat
  body : String
deriving DecidableEq, Repr

/-- `response.status().is_success()`: the 2xx range. -/
def Response.is_success (r : Response) : Bool :=
  decide (200 ≤ r.status) && decide (r.status < 300)

/-- src/middleware/idempotency.rs `idempotency_middleware` (lines 94-177).
`reachable` models whether the Redis store can be reached: when it is false,
`check_idempotency` returns an `Err`, which the middleware logs and then
processes the request anyway (the fail-open branch at lines 171-176).
`header_key` is the `x-idempotency-key` header; `next` runs the inner
handler. Returns the response and the cache afterwards. -/
def idempotency_middleware (reachable : Bool) (c : Cache) (header_key : Option String)
    (next : Unit → Response) : Response × Cache :=
  match header_key with
  | none => (next (), c)
  | some key =>
    if reachable then
      match check_idempotency c key with
      | (.New, c1) =>
        let response := next ()
        if response.is_success then
          (response, store_response c1 key response.status "success")
        else
          (response, release_lock c1 key)
      | (.Processing, c1) =>
        ({ status := 429, body := "Request is currently being processed" }, c1)
      | (.Completed s _, c1) =>
        ({ status := if 100 ≤ s ∧ s ≤ 999 then s else 200,
           body := "Request already processed" }, c1)
    else
      (next (), c)

/-! Error taxonomy, src/error.rs (the constructors the embedded paths reach). -/

/-- src/error.rs `AppError` (the variants reachable from the embedded code). -/
inductive AppError where
  | DatabaseError (msg : String)
  | Validation (msg : String)
  | NotFound (msg : String)
  | BadRequest (msg : String)
deriving DecidableEq, Repr

/-- src/error.rs `AppError::code`: the stable programmatic error code. -/
def AppError.code : AppError → String
  | .DatabaseError _ => "ERR_DATABASE_002"
  | .Validation _ => "ERR_VALIDATION_001"
  | .NotFound _ => "ERR_NOT_FOUND_001"
  | .BadRequest _ => "ERR_BAD_REQUEST_001"

/-- src/error.rs `AppError::status_code`: the HTTP status of each variant. -/
def AppError.httpStatus : AppError → Nat
  | .DatabaseError _ => 500
  | .Validation _ => 400
  | .NotFound _ => 404
  | .BadRequest _ => 400

/-- src/handlers/dlq.rs `requeue_dlq` handler (lines 35-49): runs
`TransactionProcessor::requeue_dlq` and maps any error — including the
row-not-found case — to `AppError::DatabaseError(e.to_string())`. -/
def requeue_dlq_handler (db : Db) (dlq_id : Nat) (now : Nat) : Except AppError Db :=
  match requeue_dlq db dlq_id now with
  | .error e => .error (.DatabaseError (sqlxErrorMessage e))
  | .ok db' => .ok db'

/-! Input validation, src/validation/mod.rs, and the webhook ingestion
handlers, src/handlers/webhook.rs. Strings are processed as `List Char`;
Rust's byte-oriented `len()` coincides with character count on the ASCII
inputs these paths accept (the character validators reject non-ASCII). -/

/-- Rust `char::is_control` (Unicode category Cc): U+0000..U+001F and
U+007F..U+009F. -/
def isControlChar (c : Char) : Bool :=
  decide (c.val ≤ 0x1F) || (decide (0x7F ≤ c.val) && decide (c.val ≤ 0x9F))

/-- Whitespace as used by Rust `split_whitespace`/`trim` (the ASCII subset,
which covers every character the validators admit). -/
def isWsChar (c : Char) : Bool :=
  c == ' ' || c == '\t' || c == '\n' || c == '\r' || c == '\x0b' || c == '\x0c'

/-- Split a character list at whitespace runs, discarding empty pieces
(Rust `split_whitespace`). `cur` accumulates the current word reversed. -/
def splitWsGo : List Char → List Char → List (List Char)
  | [], cur => if cur.isEmpty then [] else [cur.reverse]
  | c :: cs, cur =>
    if isWsChar c then
      if cur.isEmpty then splitWsGo cs [] else cur.reverse :: splitWsGo cs []
    else splitWsGo cs (c :: cur)

/-- src/validation/mod.rs `sanitize_string`: drop control characters, then
collapse whitespace runs by splitting into words and joining with single
spaces. -/
def sanitize_string (s : String) : String :=
  let kept := s.data.filter (fun c => !(isControlChar c))
  String.intercalate " " ((splitWsGo kept []).map (fun w => String.mk w))

/-- Rust `str::trim` (whitespace from both ends). -/
def trimString (s : String) : String :=
  String.mk (((s.data.dropWhile isWsChar).reverse.dropWhile isWsChar).reverse)

/-- src/validation/mod.rs `ValidationError`: a field name and a message;
`Display` renders it as `"field: message"`. -/
structure ValidationError where
  field : String
  message : String
deriving DecidableEq, Repr

/-- Rendering of `ValidationError` (its `Display` impl). -/
def ValidationError.render (e : ValidationError) : String :=
  e.field ++ ": " ++ e.message

/-- src/validation/mod.rs `validate_required`. -/
def validate_required (field : String) (value : String) : Except ValidationError Unit :=
  if (trimString value).data.isEmpty then .error ⟨field, "must not be empty"⟩ else .ok ()

/-- src/validation/mod.rs `validate_max_len` (Rust compares `value.len()`,
the byte length; equal to the character count on the ASCII strings here). -/
def validate_max_len (field : String) (value : String) (max_len : Nat) :
    Except ValidationError Unit :=
  if value.data.length > max_len then
    .error ⟨field, "must be at most " ++ toString max_len ++ " characters"⟩
  else .ok ()

/-- src/validation/mod.rs `validate_enum`. -/
def validate_enum (field : String) (value : String) (allowed : List String) :
    Except ValidationError Unit :=
  if allowed.all (fun candidate => value ≠ candidate) then
    .error ⟨field, "must be one of: " ++ String.intercalate ", " allowed⟩
  else .ok ()

/-- Limits from src/validation/mod.rs. -/
def STELLAR_ACCOUNT_LEN : Nat := 56

/-- Limit `ASSET_CODE_MAX_LEN` from src/validation/mod.rs. -/
def ASSET_CODE_MAX_LEN : Nat := 12

/-- Limit `ANCHOR_TRANSACTION_ID_MAX_LEN` from src/validation/mod.rs. -/
def ANCHOR_TRANSACTION_ID_MAX_LEN : Nat := 255

/-- Limit `CALLBACK_TYPE_MAX_LEN` from src/validation/mod.rs. -/
def CALLBACK_TYPE_MAX_LEN : Nat := 20

/-- Limit `CALLBACK_STATUS_MAX_LEN` from src/validation/mod.rs. -/
def CALLBACK_STATUS_MAX_LEN : Nat := 20

/-- Limit `AMOUNT_INPUT_MAX_LEN` from src/validation/mod.rs: the input-length
bound on the amount string. -/
def AMOUNT_INPUT_MAX_LEN : Nat := 64

/-- Allowed asset codes, src/validation/mod.rs `ALLOWED_ASSET_CODES`. -/
def ALLOWED_ASSET_CODES : List String := ["USD"]

/-- src/validation/mod.rs `validate_stellar_address`. -/
def validate_stellar_address (stellar_address : String) : Except ValidationError Unit := do
  let sa := sanitize_string stellar_address
  let _ ← validate_required "stellar_address" sa
  if sa.data.length ≠ STELLAR_ACCOUNT_LEN then
    throw ⟨"stellar_address", "must be exactly " ++ toString STELLAR_ACCOUNT_LEN ++ " characters"⟩
  else if !(sa.data.head? == some 'G') then
    throw ⟨"stellar_address", "must start with 'G'"⟩
  else if !(sa.data.all (fun ch => ch.isUpper || ch.isDigit)) then
    throw ⟨"stellar_address", "must contain only uppercase letters and digits"⟩
  else return ()

/-- src/validation/mod.rs `validate_asset_code`. -/
def validate_asset_code (asset_code : String) : Except ValidationError Unit := do
  let ac := sanitize_string asset_code
  let _ ← validate_required "asset_code" ac
  let _ ← validate_max_len "asset_code" ac ASSET_CODE_MAX_LEN
  if !(ac.data.all (fun ch => ch.isUpper || ch.isDigit)) then
    throw ⟨"asset_code", "must contain only uppercase letters and digits"⟩
  else
    let _ ← validate_enum "asset_code" ac ALLOWED_ASSET_CODES
    return ()

/-- src/validation/mod.rs `validate_positive_amount`: rejects `amount <= 0`. -/
def validate_positive_amount (amount : ℚ) : Except ValidationError Unit :=
  if amount ≤ 0 then .error ⟨"amount", "must be greater than zero"⟩ else .ok ()

/-- Digits of a decimal string to a number; `none` on a non-digit or on the
empty list. -/
def digitsToNat? (cs : List Char) : Option Nat :=
  if cs.isEmpty then none
  else cs.foldl (fun acc c =>
    acc.bind (fun n => if c.isDigit then some (n * 10 + (c.toNat - 48)) else none))
    (some 0)

/-- Split a character list at the first `'.'`. -/
def splitDot : List Char → List Char × Option (List Char)
  | [] => ([], none)
  | '.' :: rest => ([], some rest)
  | c :: rest =>
    let (i, f) := splitDot rest
    (c :: i, f)

/-- BigDecimal's `FromStr` on the plain decimal forms the ingestion paths see:
an optional sign, an integer part and an optional fractional part, parsed
exactly into `ℚ` (scientific notation is not needed by any claim and is left
out of the model). -/
def parseBigDecimal (s : String) : Option ℚ :=
  let cs := s.data
  let (neg, cs) :=
    match cs with
    | '-' :: rest => (true, rest)
    | '+' :: rest => (false, rest)
    | _ => (false, cs)
  let (intPart, fracPart) := splitDot cs
  let value? : Option ℚ :=
    match fracPart with
    | none => (digitsToNat? intPart).map (fun n => (n : ℚ))
    | some frac =>
      if intPart.isEmpty && frac.isEmpty then none
      else
        let i : Option ℚ :=
          if intPart.isEmpty then some 0 else (digitsToNat? intPart).map (fun n => (n : ℚ))
        let f : Option ℚ :=
          if frac.isEmpty then some 0
          else (digitsToNat? frac).map (fun n => (n : ℚ) / ((10 : ℚ) ^ frac.length))
        i.bind (fun iv => f.map (fun fv => iv + fv))
  value?.map (fun v => if neg then -v else v)

/-- src/db/models.rs `Transaction::new`: a fresh row with status `pending`,
no settlement reference, and both timestamps set to now. -/
def Transaction.new (stellar_account : String) (amount : ℚ) (asset_code : String)
    (anchor_transaction_id callback_type callback_status memo memo_type metadata :
      Option String) (new_id : Nat) (now : Nat) : Transaction :=
  { id := new_id, stellar_account := stellar_account, amount := amount,
    asset_code := asset_code, status := "pending", created_at := now, updated_at := now,
    anchor_transaction_id := anchor_transaction_id, callback_type := callback_type,
    callback_status := callback_status, settlement_id := none, memo := memo,
    memo_type := memo_type, metadata := metadata }

/-- src/handlers/webhook.rs `CallbackPayload`: the body of the `/callback`
endpoint. -/
structure CallbackPayload where
  stellar_account : String
  amount : String
  asset_code : String
  callback_type : Option String
  callback_status : Option String
  anchor_transaction_id : Option String
  memo : Option String
  memo_type : Option String
  metadata : Option String
deriving DecidableEq, Repr

/-- src/handlers/webhook.rs `validate_memo_type` (lines 276-288). -/
def validate_memo_type (memo_type : Option String) : Except AppError Unit :=
  match memo_type with
  | some mt =>
    if mt = "text" ∨ mt = "hash" ∨ mt = "id" then .ok ()
    else .error (.Validation ("Invalid memo_type '" ++ mt ++ "'. Must be one of: text, hash, id"))
  | none => .ok ()

/-- src/handlers/webhook.rs `callback` (lines 301-326), the `/callback`
ingestion endpoint: validate the memo type, parse the amount string with
`BigDecimal::from_str`, build `Transaction::new`, and insert. No other
validation runs on this path. Returns the inserted row and the post-state. -/
def callback (db : Db) (payload : CallbackPayload) (new_id : Nat) (now : Nat) :
    Except AppError (Transaction × Db) := do
  let _ ← validate_memo_type payload.memo_type
  match parseBigDecimal payload.amount with
  | none => throw (.Validation ("Invalid amount: " ++ payload.amount))
  | some amount =>
    let tx := Transaction.new payload.stellar_account amount payload.asset_code
      payload.anchor_transaction_id payload.callback_type payload.callback_status
      payload.memo payload.memo_type payload.metadata new_id now
    match insert_transaction db tx with
    | .error e => throw (.DatabaseError (sqlxErrorMessage e))
    | .ok db' => return (tx, db')

/-- src/handlers/webhook.rs `WebhookTransactionRequest`: the body of the
validated webhook ingestion endpoint. -/
structure WebhookTransactionRequest where
  stellar_address : String
  amount : String
  asset_code : String
  anchor_transaction_id : Option String
  callback_type : Option String
  callback_status : Option String
deriving DecidableEq, Repr

/-- src/handlers/webhook.rs `ValidatedWebhookTransaction`. -/
structure ValidatedWebhookTransaction where
  stellar_address : String
  amount : ℚ
  asset_code : String
  anchor_transaction_id : Option String
  callback_type : Option String
  callback_status : Option String
deriving DecidableEq, Repr

/-- src/handlers/webhook.rs `sanitize_optional`. -/
def sanitize_optional (value : Option String) : Option String :=
  (value.map sanitize_string).bind (fun v => if v.data.isEmpty then none else some v)

/-- src/handlers/webhook.rs `validate_webhook_payload` (lines 67-112): the
full validation pipeline of the validated webhook ingestion path, including
the `AMOUNT_INPUT_MAX_LEN` length check and `validate_positive_amount`. -/
def validate_webhook_payload (payload : WebhookTransactionRequest) :
    Except AppError ValidatedWebhookTransaction := do
  let stellar_address := sanitize_string payload.stellar_address
  let asset_code := sanitize_string payload.asset_code
  let amount_str := sanitize_string payload.amount
  let anchor_transaction_id := sanitize_optional payload.anchor_transaction_id
  let callback_type := sanitize_optional payload.callback_type
  let callback_status := sanitize_optional payload.callback_status
  match validate_stellar_address stellar_address with
  | .error e => throw (.Validation e.render)
  | .ok _ =>
  match validate_asset_code asset_code with
  | .error e => throw (.Validation e.render)
  | .ok _ =>
  match validate_max_len "amount" amount_str AMOUNT_INPUT_MAX_LEN with
  | .error e => throw (.Validation e.render)
  | .ok _ =>
  match anchor_transaction_id.elim (Except.ok ())
      (fun v => validate_max_len "anchor_transaction_id" v ANCHOR_TRANSACTION_ID_MAX_LEN) with
  | .error e => throw (.Validation e.render)
  | .ok _ =>
  match callback_type.elim (Except.ok ())
      (fun v => validate_max_len "callback_type" v CALLBACK_TYPE_MAX_LEN) with
  | .error e => throw (.Validation e.render)
  | .ok _ =>
  match callback_status.elim (Except.ok ())
      (fun v => validate_max_len "callback_status" v CALLBACK_STATUS_MAX_LEN) with
  | .error e => throw (.Validation e.render)
  | .ok _ =>
  match parseBigDecimal amount_str with
  | none => throw (.Validation "amount: must be a valid decimal")
  | some amount =>
  match validate_positive_amount amount with
  | .error e => throw (.Validation e.render)
  | .ok _ =>
    return { stellar_address := stellar_address, amount := amount,
             asset_code := asset_code, anchor_transaction_id := anchor_transaction_id,
             callback_type := callback_type, callback_status := callback_status }

/-! Cursor-paginated listing, src/db/queries.rs `list_transactions`
(lines 45-103) and the handler src/handlers/webhook.rs `list_transactions`
(lines 409-448). The SQL row comparison `(created_at, id) < ($1, $2)` is
lexicographic; `ORDER BY created_at DESC, id DESC` / `ASC, ASC` are modelled
by sorting under the corresponding total preorder on the composite key. -/

/-- Composite pagination key of a row: `(created_at, id)`. -/
def txKey (t : Transaction) : Nat × Nat := (t.created_at, t.id)

/-- Lexicographic strict order on composite keys — the meaning of the SQL
row comparison `(created_at, id) < (c, i)`. -/
def keyLt (a b : Nat × Nat) : Prop :=
  a.1 < b.1 ∨ (a.1 = b.1 ∧ a.2 < b.2)

instance (a b : Nat × Nat) : Decidable (keyLt a b) :=
  decidable_of_iff (a.1 < b.1 ∨ (a.1 = b.1 ∧ a.2 < b.2)) Iff.rfl

/-- The preorder `ORDER BY created_at DESC, id DESC` sorts by. -/
def descLe (t t' : Transaction) : Prop :=
  keyLt (txKey t') (txKey t) ∨ txKey t' = txKey t

/-- The preorder `ORDER BY created_at ASC, id ASC` sorts by. -/
def ascLe (t t' : Transaction) : Prop :=
  keyLt (txKey t) (txKey t') ∨ txKey t = txKey t'

instance (t t' : Transaction) : Decidable (descLe t t') :=
  decidable_of_iff (keyLt (txKey t') (txKey t) ∨ txKey t' = txKey t) Iff.rfl

instance (t t' : Transaction) : Decidable (ascLe t t') :=
  decidable_of_iff (keyLt (txKey t) (txKey t') ∨ txKey t = txKey t') Iff.rfl

/-- Strict version of `descLe`: the row order is strictly newest-first. -/
def descLt (t t' : Transaction) : Prop :=
  keyLt (txKey t') (txKey t)

instance : IsTotal Transaction descLe :=
  ⟨fun t t' => by
    unfold descLe keyLt
    rcases Nat.lt_trichotomy (txKey t').1 (txKey t).1 with h | h | h
    · exact Or.inl (Or.inl (Or.inl h))
    · rcases Nat.lt_trichotomy (txKey t').2 (txKey t).2 with h2 | h2 | h2
      · exact Or.inl (Or.inl (Or.inr ⟨h, h2⟩))
      · exact Or.inl (Or.inr (Prod.ext h h2))
      · exact Or.inr (Or.inl (Or.inr ⟨h.symm, h2⟩))
    · exact Or.inr (Or.inl (Or.inl h))⟩

instance : IsTrans Transaction descLe :=
  ⟨fun a b c hab hbc => by
    unfold descLe keyLt at hab hbc ⊢
    rcases hab with h1 | h1 <;> rcases hbc with h2 | h2 <;>
      first
        | (left; omega)
        | (rw [h2]; exact Or.inl h1)
        | (rw [h1] at *; exact Or.inl h2)
        | (right; rw [h2, h1])⟩

instance : IsAntisymm Transaction descLt :=
  ⟨fun a b h1 h2 => by
    exfalso
    unfold descLt keyLt at h1 h2
    omega⟩

/-- Rows in `ORDER BY created_at DESC, id DESC` order. -/
def sortDescCreatedId (l : List Transaction) : List Transaction :=
  List.insertionSort descLe l

/-- Rows in `ORDER BY created_at ASC, id ASC` order. -/
def sortAscCreatedId (l : List Transaction) : List Transaction :=
  List.insertionSort ascLe l

/-- src/db/queries.rs `list_transactions` (lines 45-103): with a cursor,
forward pages select `(created_at, id) < cursor` newest-first and backward
pages select `(created_at, id) > cursor` oldest-first and then reverse; with
no cursor, the first page is newest-first and the backward variant returns
the oldest rows reversed. -/
def list_transactions (db : Db) (limit : Nat) (cursor : Option (Nat × Nat))
    (backward : Bool) : List Transaction :=
  match cursor with
  | some c =>
    if !backward then
      (sortDescCreatedId (db.transactions.filter
        (fun t => decide (keyLt (txKey t) c)))).take limit
    else
      ((sortAscCreatedId (db.transactions.filter
        (fun t => decide (keyLt c (txKey t))))).take limit).reverse
  | none =>
    if !backward then
      (sortDescCreatedId db.transactions).take limit
    else
      ((sortAscCreatedId db.transactions).take limit).reverse

/-- Result of one page of the listing handler. -/
structure PageResult where
  rows : List Transaction
  has_more : Bool
  next_cursor : Option (Nat × Nat)
deriving DecidableEq, Repr

/-- src/handlers/webhook.rs `list_transactions` handler (lines 409-448):
fetch `limit + 1` rows to decide `has_more`, truncate to `limit`, and emit
the key of the last returned row as `next_cursor`. -/
def list_transactions_page (db : Db) (limit : Nat) (cursor : Option (Nat × Nat))
    (backward : Bool) : PageResult :=
  let fetch_limit := limit + 1
  let fetched := list_transactions db fetch_limit cursor backward
  let has_more := decide (fetched.length > limit)
  let rows := if fetched.length > limit then fetched.take limit else fetched
  { rows := rows, has_more := has_more, next_cursor := rows.getLast?.map txKey }

/-- A full paging traversal as a client performs it against the handler:
start from no cursor, and while a page reports `has_more`, continue from the
`next_cursor` it returned. `fuel` bounds the number of pages fetched. -/
def traverse_pages (db : Db) (limit : Nat) :
    Nat → Option (Nat × Nat) → Bool → List Transaction
  | 0, _, _ => []
  | fuel + 1, cursor, backward =>
    let p := list_transactions_page db limit cursor backward
    if p.has_more then p.rows ++ traverse_pages db limit fuel p.next_cursor backward
    else p.rows

/-! Reachable operation sequences over the store. Each constructor is one
atomic statement or one atomic sqlx transaction of the source; the two write
statements of the (non-transactional) requeue path appear as separate
operations, so every interleaving and every crash prefix is a reachable
sequence. -/

/-- One atomic store operation of the subsystem. -/
inductive Op where
  | insertTx (tx : Transaction)
  | processTx (tx_id : Nat) (now : Nat)
  | settleAssetOp (asset_code : String) (now : Nat) (new_id : Nat)
  | requeueSetPending (tx_id : Nat) (now : Nat)
  | requeueDeleteEntry (dlq_id : Nat)

/-- Effect of one operation on the store (a failed insert writes nothing). -/
def applyOp (db : Db) : Op → Db
  | .insertTx tx =>
    match insert_transaction db tx with
    | .ok db' => db'
    | .error _ => db
  | .processTx tx_id now => process_transaction db tx_id now
  | .settleAssetOp asset_code now new_id => (settle_asset db asset_code now new_id).2
  | .requeueSetPending tx_id now => requeue_set_pending db tx_id now
  | .requeueDeleteEntry dlq_id => requeue_delete_entry db dlq_id

/-- Effect of a sequence of operations. -/
def applyOps (db : Db) (ops : List Op) : Db :=
  ops.foldl applyOp db

/-- Primary-key wellformedness of the transactions table: row ids are unique
(enforced by the database; `insert_transaction` preserves it). -/
def nodupIds (db : Db) : Prop :=
  (db.transactions.map (fun t => t.id)).Nodup

instance (db : Db) : Decidable (nodupIds db) :=
  inferInstanceAs (Decidable ((db.transactions.map (fun (t : Transaction) => t.id)).Nodup))

/-! Concrete fixtures used by witnesses and counterexamples. -/

/-- A transaction row fixture (56-character stellar account, asset USD,
amount 100.5) with the given id, timestamps, status and settlement link. -/
def fixtureTx (id created updated : Nat) (status : String) (settlement : Option Nat) :
    Transaction :=
  { id := id, stellar_account := String.mk ('G' :: List.replicate 55 'A'),
    amount := 100, asset_code := "USD", status := status, created_at := created,
    updated_at := updated, anchor_transaction_id := none, callback_type := none,
    callback_status := none, settlement_id := settlement, memo := none,
    memo_type := none, metadata := none }

/-- A dead-letter row fixture pointing at transaction 1. -/
def dlqFixtureEntry : TransactionDlq :=
  { id := 10, transaction_id := 1, stellar_account := String.mk ('G' :: List.replicate 55 'A'),
    amount := 100, asset_code := "USD", anchor_transaction_id := none,
    error_reason := "processing failed", stack_trace := none, retry_count := 0,
    original_created_at := 0, moved_to_dlq_at := 1, last_retry_at := none }

/-- Store with one dlq-status transaction and its dead-letter entry. -/
def dlqFixtureDb : Db :=
  { transactions := [fixtureTx 1 0 0 "dlq" none], settlements := [],
    transaction_dlq := [dlqFixtureEntry] }

/-- Store with one dlq-status transaction and an empty dead-letter table. -/
def noDlqDb : Db :=
  { transactions := [fixtureTx 1 0 0 "dlq" none], settlements := [], transaction_dlq := [] }

/-- The empty store. -/
def emptyDb : Db := { transactions := [], settlements := [], transaction_dlq := [] }

/-- A 56-character stellar address accepted by the validators. -/
def gAddr : String := String.mk ('G' :: List.replicate 55 'A')

/-- An otherwise-valid `/callback` payload whose amount string is `"0"`. -/
def zeroAmountPayload : CallbackPayload :=
  { stellar_account := gAddr, amount := "0", asset_code := "USD", callback_type := none,
    callback_status := none, anchor_transaction_id := none, memo := none,
    memo_type := none, metadata := none }

/-- The same zero-amount input, as a request of the validated webhook path. -/
def zeroWebhookReq : WebhookTransactionRequest :=
  { stellar_address := gAddr, amount := "0", asset_code := "USD",
    anchor_transaction_id := none, callback_type := none, callback_status := none }

/-- The row the `/callback` handler builds from `zeroAmountPayload`. -/
def zeroInsertedTx : Transaction :=
  Transaction.new gAddr 0 "USD" none none none none none none 1 100

/-- The store after `/callback` accepts `zeroAmountPayload`. -/
def zeroInsertedDb : Db :=
  { transactions := [zeroInsertedTx], settlements := [], transaction_dlq := [] }

/-- Five rows with distinct creation timestamps, for paging traversals. -/
def pagingDb : Db :=
  { transactions :=
      [fixtureTx 1 1 1 "pending" none, fixtureTx 2 2 2 "pending" none,
       fixtureTx 3 3 3 "pending" none, fixtureTx 4 4 4 "pending" none,
       fixtureTx 5 5 5 "pending" none],
    settlements := [], transaction_dlq := [] }

/-- Store with a transaction already linked to settlement 7, an unsettled
completed transaction, and a dead-letter entry. -/
def c1WitnessDb : Db :=
  { transactions := [fixtureTx 1 0 0 "completed" (some 7), fixtureTx 2 1 1 "completed" none],
    settlements := [], transaction_dlq := [dlqFixtureEntry] }

/-- A sequence exercising every operation kind. -/
def c1WitnessOps : List Op :=
  [.processTx 1 9, .settleAssetOp "USD" 9 8, .requeueSetPending 1 9,
   .requeueDeleteEntry 10, .insertTx (fixtureTx 3 2 2 "pending" none)]

/-- Two completed unsettled USD rows and one pending row. -/
def c2WitnessDb : Db :=
  { transactions :=
      [fixtureTx 1 0 2 "completed" none, fixtureTx 2 1 1 "completed" none,
       fixtureTx 3 1 1 "pending" none],
    settlements := [], transaction_dlq := [] }

/-! Theorems. -/

/-- Lookup by id commutes with a row transformation that preserves ids. -/
theorem find?_map_id (l : List Transaction) (f : Transaction → Transaction)
    (hf : ∀ t, (f t).id = t.id) (i : Nat) :
    (l.map f).find? (fun t => t.id == i) = (l.find? (fun t => t.id == i)).map f := by
  rw [List.find?_map]
  have hp : ((fun t : Transaction => t.id == i) ∘ f) = (fun t : Transaction => t.id == i) := by
    funext t
    simp [Function.comp, hf]
  rw [hp]

/-- Mapping an id-preserving transformation over the rows keeps the id list. -/
theorem map_ids_of_id_preserved (l : List Transaction) (f : Transaction → Transaction)
    (hf : ∀ t, (f t).id = t.id) :
    (l.map f).map (fun t => t.id) = l.map (fun t => t.id) := by
  rw [List.map_map]
  exact List.map_congr_left (fun t _ => hf t)

/-- The transactions table a `settle_asset` call leaves behind: unchanged on
the empty rollback branch, and otherwise the rows whose ids were selected by
the locking scan are linked to the new settlement. -/
theorem settle_asset_snd_transactions (db : Db) (a : String) (now new_id : Nat) :
    (settle_asset db a now new_id).2.transactions =
      if (get_unsettled_transactions db a now).isEmpty then db.transactions
      else db.transactions.map (fun t =>
        if t.id ∈ (get_unsettled_transactions db a now).map (fun u => u.id) then
          { t with settlement_id := some new_id, updated_at := now }
        else t) := by
  simp only [settle_asset]
  split
  · rfl
  · rfl

/-- A `settle_asset` call never touches the dead-letter table. -/
theorem settle_asset_snd_dlq (db : Db) (a : String) (now new_id : Nat) :
    (settle_asset db a now new_id).2.transaction_dlq = db.transaction_dlq := by
  simp only [settle_asset]
  split
  · rfl
  · rfl

/-- Every operation preserves uniqueness of transaction ids. -/
theorem nodupIds_applyOp (db : Db) (op : Op) (h : nodupIds db) : nodupIds (applyOp db op) := by
  cases op with
  | insertTx tx =>
    by_cases hc : db.transactions.any (fun u => u.id == tx.id)
    · simpa [applyOp, insert_transaction, hc] using h
    · have happ : applyOp db (Op.insertTx tx) =
          { db with transactions := db.transactions ++ [tx] } := by
        simp [applyOp, insert_transaction, hc]
      unfold nodupIds at h ⊢
      rw [happ]
      dsimp only
      rw [List.map_append, List.nodup_append]
      refine ⟨h, List.nodup_singleton _, ?_⟩
      intro x hx hx'
      simp only [List.map_cons, List.map_nil, List.mem_singleton] at hx'
      subst hx'
      obtain ⟨u, hu, hid⟩ := List.mem_map.mp hx
      have hall : ∀ v ∈ db.transactions, ¬ v.id = tx.id := by simpa using hc
      exact hall u hu hid
  | processTx i n =>
    unfold nodupIds at h ⊢
    simp only [applyOp, process_transaction]
    rw [map_ids_of_id_preserved]
    · exact h
    · intro u
      by_cases hu : u.id = i <;> simp [hu]
  | settleAssetOp a n s =>
    unfold nodupIds at h ⊢
    simp only [applyOp]
    rw [settle_asset_snd_transactions]
    split
    · exact h
    · rw [map_ids_of_id_preserved]
      · exact h
      · intro u
        by_cases hu : u.id ∈ (get_unsettled_transactions db a n).map (fun v => v.id) <;>
          simp [hu]
  | requeueSetPending i n =>
    unfold nodupIds at h ⊢
    simp only [applyOp, requeue_set_pending]
    rw [map_ids_of_id_preserved]
    · exact h
    · intro u
      by_cases hu : u.id = i <;> simp [hu]
  | requeueDeleteEntry d =>
    simpa [nodupIds, applyOp, requeue_delete_entry] using h

/-- A row of the locking scan's result set is a stored row satisfying the
scan predicate. -/
theorem mem_get_unsettled (db : Db) (a : String) (e : Nat) (u : Transaction)
    (hu : u ∈ get_unsettled_transactions db a e) :
    u ∈ db.transactions ∧ u.settlement_id = none := by
  have h := List.mem_filter.mp hu
  refine ⟨h.1, ?_⟩
  have h2 := h.2
  simp only [isUnsettledCandidate, Bool.and_eq_true, beq_iff_eq] at h2
  exact h2.1.1.2

/-- One operation preserves an already-assigned settlement link. -/
theorem applyOp_preserves_settlement_id (db : Db) (op : Op) (tx_id sid : Nat)
    (t : Transaction) (hnodup : nodupIds db) (hfind : lookupTx db tx_id = some t)
    (hsid : t.settlement_id = some sid) :
    ∃ t', lookupTx (applyOp db op) tx_id = some t' ∧ t'.settlement_id = some sid := by
  cases op with
  | insertTx tx =>
    by_cases hc : db.transactions.any (fun u => u.id == tx.id)
    · exact ⟨t, by simpa [applyOp, insert_transaction, hc] using hfind, hsid⟩
    · refine ⟨t, ?_, hsid⟩
      have happ : applyOp db (Op.insertTx tx) =
          { db with transactions := db.transactions ++ [tx] } := by
        simp [applyOp, insert_transaction, hc]
      rw [happ]
      unfold lookupTx at hfind ⊢
      dsimp only
      rw [List.find?_append, hfind]
      rfl
  | processTx i n =>
    refine ⟨if t.id = i then { t with status := "completed", updated_at := n } else t, ?_, ?_⟩
    · unfold lookupTx at hfind ⊢
      simp only [applyOp, process_transaction]
      rw [find?_map_id _ _ (fun u => by by_cases hu : u.id = i <;> simp [hu]), hfind]
      rfl
    · split <;> simpa using hsid
  | requeueSetPending i n =>
    refine ⟨if t.id = i then { t with status := "pending", updated_at := n } else t, ?_, ?_⟩
    · unfold lookupTx at hfind ⊢
      simp only [applyOp, requeue_set_pending]
      rw [find?_map_id _ _ (fun u => by by_cases hu : u.id = i <;> simp [hu]), hfind]
      rfl
    · split <;> simpa using hsid
  | requeueDeleteEntry d =>
    exact ⟨t, by simpa [applyOp, requeue_delete_entry, lookupTx] using hfind, hsid⟩
  | settleAssetOp a n s =>
    by_cases he : (get_unsettled_transactions db a n).isEmpty
    · refine ⟨t, ?_, hsid⟩
      unfold lookupTx at hfind ⊢
      simp only [applyOp]
      rw [settle_asset_snd_transactions, if_pos he]
      exact hfind
    · have hmem : t.id ∉ (get_unsettled_transactions db a n).map (fun u => u.id) := by
        intro hin
        obtain ⟨u, hu, hid⟩ := List.mem_map.mp hin
        obtain ⟨humem, husid⟩ := mem_get_unsettled db a n u hu
        have ht : t ∈ db.transactions := List.mem_of_find?_eq_some hfind
        have : u = t :=
          List.inj_on_of_nodup_map hnodup humem ht (by simpa using hid)
        rw [this] at husid
        rw [husid] at hsid
        cases hsid
      refine ⟨t, ?_, hsid⟩
      unfold lookupTx at hfind ⊢
      simp only [applyOp]
      rw [settle_asset_snd_transactions, if_neg he]
      rw [find?_map_id _ _ (fun u => by
        by_cases hu : u.id ∈ (get_unsettled_transactions db a n).map (fun v => v.id) <;>
          simp [hu]), hfind]
      simp only [Option.map_some']
      rw [if_neg hmem]

/-- C1 (confirmed): across every reachable sequence of operations — callback
ingestion inserts, settlement runs, requeue steps, processing updates — a
transaction's `settlement_id`, once set to a settlement, keeps exactly that
value: it is never cleared and never changed, so no transaction is ever
included in two settlements. -/
theorem settlement_id_set_at_most_once (db : Db) (ops : List Op) (tx_id sid : Nat)
    (t : Transaction) (hnodup : nodupIds db) (hfind : lookupTx db tx_id = some t)
    (hsid : t.settlement_id = some sid) :
    ∃ t', lookupTx (applyOps db ops) tx_id = some t' ∧ t'.settlement_id = some sid := by
  induction ops generalizing db t with
  | nil => exact ⟨t, hfind, hsid⟩
  | cons op rest ih =>
    obtain ⟨t', h1, h2⟩ := applyOp_preserves_settlement_id db op tx_id sid t hnodup hfind hsid
    exact ih (applyOp db op) t' (nodupIds_applyOp db op hnodup) h1 h2

/-- Witness for C1 at a concrete store and operation sequence. -/
theorem settlement_id_set_at_most_once_witness :
    nodupIds c1WitnessDb ∧
    lookupTx c1WitnessDb 1 = some (fixtureTx 1 0 0 "completed" (some 7)) ∧
    (fixtureTx 1 0 0 "completed" (some 7)).settlement_id = some 7 ∧
    (∃ t', lookupTx (applyOps c1WitnessDb c1WitnessOps) 1 = some t' ∧
      t'.settlement_id = some 7) :=
  ⟨by decide, by decide, by decide,
    settlement_id_set_at_most_once c1WitnessDb c1WitnessOps 1 7
      (fixtureTx 1 0 0 "completed" (some 7)) (by decide) (by decide) (by decide)⟩

/-- The settlement a `settle_asset` call returns: none on the empty rollback
branch, otherwise the aggregate of the locked candidate rows exactly as the
source computes it. -/
theorem settle_asset_fst (db : Db) (a : String) (now new_id : Nat) :
    (settle_asset db a now new_id).1 =
      if (get_unsettled_transactions db a now).isEmpty then none
      else some
        { id := new_id, asset_code := a,
          total_amount :=
            ((get_unsettled_transactions db a now).map (fun t => t.amount)).foldl (· + ·) 0,
          tx_count := (get_unsettled_transactions db a now).length,
          period_start :=
            (((get_unsettled_transactions db a now).map (fun t => t.created_at)).min?).getD now,
          period_end :=
            (((get_unsettled_transactions db a now).map (fun t => t.updated_at)).max?).getD now,
          status := "completed", created_at := now, updated_at := now } := by
  simp only [settle_asset]
  split
  · rfl
  · rfl

/-- The settlements table a `settle_asset` call leaves behind: unchanged on
the rollback branch, otherwise the old table with exactly the one new row
appended. -/
theorem settle_asset_snd_settlements (db : Db) (a : String) (now new_id : Nat) :
    (settle_asset db a now new_id).2.settlements =
      if (get_unsettled_transactions db a now).isEmpty then db.settlements
      else db.settlements ++ [
        { id := new_id, asset_code := a,
          total_amount :=
            ((get_unsettled_transactions db a now).map (fun t => t.amount)).foldl (· + ·) 0,
          tx_count := (get_unsettled_transactions db a now).length,
          period_start :=
            (((get_unsettled_transactions db a now).map (fun t => t.created_at)).min?).getD now,
          period_end :=
            (((get_unsettled_transactions db a now).map (fun t => t.updated_at)).max?).getD now,
          status := "completed", created_at := now, updated_at := now }] := by
  simp only [settle_asset]
  split
  · rfl
  · rfl

/-- With unique row ids, a row id appears among the ids selected by the
locking scan exactly when the row itself satisfies the scan predicate. -/
theorem mem_unsettled_ids_iff (db : Db) (a : String) (now : Nat)
    (hnodup : nodupIds db) (t : Transaction) (ht : t ∈ db.transactions) :
    t.id ∈ (get_unsettled_transactions db a now).map (fun u => u.id) ↔
      isUnsettledCandidate a now t = true := by
  constructor
  · intro hin
    obtain ⟨u, hu, hid⟩ := List.mem_map.mp hin
    have hu2 := List.mem_filter.mp hu
    have heq : u = t := List.inj_on_of_nodup_map hnodup hu2.1 ht (by simpa using hid)
    rw [heq] at hu2
    exact hu2.2
  · intro hc
    exact List.mem_map.mpr ⟨t, List.mem_filter.mpr ⟨ht, hc⟩, rfl⟩

/-- A `settle_asset` call with no eligible row rolls back: it returns `none`
and the whole store unchanged. -/
theorem settle_asset_empty_rollback (db : Db) (a : String) (now new_id : Nat)
    (he : get_unsettled_transactions db a now = []) :
    settle_asset db a now new_id = (none, db) := by
  simp [settle_asset, he]

/-- C2 (confirmed): on a non-empty eligible set, `settle_asset` creates
exactly one settlement — appended to the settlements table — whose total is
the exact sum of the constituent amounts, whose count is the number of
constituents, whose period bounds are the minimum `created_at` and maximum
`updated_at` of the constituents, and it links exactly the eligible rows to
the new settlement, leaving every other row untouched. -/
theorem settle_asset_aggregates_exactly (db : Db) (a : String) (now new_id : Nat)
    (hnodup : nodupIds db)
    (hne : get_unsettled_transactions db a now ≠ []) :
    ∃ s, (settle_asset db a now new_id).1 = some s ∧
      (settle_asset db a now new_id).2.settlements = db.settlements ++ [s] ∧
      s.asset_code = a ∧
      s.total_amount = ((get_unsettled_transactions db a now).map (fun t => t.amount)).sum ∧
      s.tx_count = (get_unsettled_transactions db a now).length ∧
      s.period_start ∈ (get_unsettled_transactions db a now).map (fun t => t.created_at) ∧
      (∀ x ∈ (get_unsettled_transactions db a now).map (fun t => t.created_at),
        s.period_start ≤ x) ∧
      s.period_end ∈ (get_unsettled_transactions db a now).map (fun t => t.updated_at) ∧
      (∀ x ∈ (get_unsettled_transactions db a now).map (fun t => t.updated_at),
        x ≤ s.period_end) ∧
      List.Forall₂ (fun t t' =>
        t' = if isUnsettledCandidate a now t then
          { t with settlement_id := some new_id, updated_at := now } else t)
        db.transactions (settle_asset db a now new_id).2.transactions := by
  have hemp : ¬ ((get_unsettled_transactions db a now).isEmpty = true) := by
    simpa [List.isEmpty_iff] using hne
  have hminmem : ((get_unsettled_transactions db a now).map (fun t => t.created_at)) ≠ [] := by
    simpa using hne
  obtain ⟨pmin, hpmin⟩ : ∃ m,
      ((get_unsettled_transactions db a now).map (fun t => t.created_at)).min? = some m := by
    cases hm : ((get_unsettled_transactions db a now).map (fun t => t.created_at)).min? with
    | none => exact absurd (List.min?_eq_none_iff.mp hm) hminmem
    | some m => exact ⟨m, rfl⟩
  have hmaxmem : ((get_unsettled_transactions db a now).map (fun t => t.updated_at)) ≠ [] := by
    simpa using hne
  obtain ⟨pmax, hpmax⟩ : ∃ m,
      ((get_unsettled_transactions db a now).map (fun t => t.updated_at)).max? = some m := by
    cases hm : ((get_unsettled_transactions db a now).map (fun t => t.updated_at)).max? with
    | none => exact absurd (List.max?_eq_none_iff.mp hm) hmaxmem
    | some m => exact ⟨m, rfl⟩
  have hminspec := List.min?_eq_some_iff'.mp hpmin
  have hmaxspec := List.max?_eq_some_iff'.mp hpmax
  refine ⟨_, by rw [settle_asset_fst, if_neg hemp], by
    rw [settle_asset_snd_settlements, if_neg hemp], rfl, ?_, rfl, ?_, ?_, ?_, ?_, ?_⟩
  · simpa using (List.sum_eq_foldl
      (l := (get_unsettled_transactions db a now).map (fun t => t.amount))).symm
  · simpa [hpmin] using hminspec.1
  · intro x hx
    simpa [hpmin] using hminspec.2 x hx
  · simpa [hpmax] using hmaxspec.1
  · intro x hx
    simpa [hpmax] using hmaxspec.2 x hx
  · rw [settle_asset_snd_transactions, if_neg hemp]
    rw [List.forall₂_map_right_iff]
    rw [List.forall₂_same]
    intro t ht
    by_cases hc : isUnsettledCandidate a now t = true
    · rw [if_pos ((mem_unsettled_ids_iff db a now hnodup t ht).mpr hc), if_pos hc]
    · rw [if_neg (fun hin => hc ((mem_unsettled_ids_iff db a now hnodup t ht).mp hin)),
        if_neg hc]

/-- Witness for C2 at a concrete store. -/
theorem settle_asset_aggregates_exactly_witness :
    nodupIds c2WitnessDb ∧
    get_unsettled_transactions c2WitnessDb "USD" 5 ≠ [] ∧
    (∃ s, (settle_asset c2WitnessDb "USD" 5 9).1 = some s ∧
      (settle_asset c2WitnessDb "USD" 5 9).2.settlements = c2WitnessDb.settlements ++ [s] ∧
      s.asset_code = "USD" ∧
      s.total_amount =
        ((get_unsettled_transactions c2WitnessDb "USD" 5).map (fun t => t.amount)).sum ∧
      s.tx_count = (get_unsettled_transactions c2WitnessDb "USD" 5).length ∧
      s.period_start ∈
        (get_unsettled_transactions c2WitnessDb "USD" 5).map (fun t => t.created_at) ∧
      (∀ x ∈ (get_unsettled_transactions c2WitnessDb "USD" 5).map (fun t => t.created_at),
        s.period_start ≤ x) ∧
      s.period_end ∈
        (get_unsettled_transactions c2WitnessDb "USD" 5).map (fun t => t.updated_at) ∧
      (∀ x ∈ (get_unsettled_transactions c2WitnessDb "USD" 5).map (fun t => t.updated_at),
        x ≤ s.period_end) ∧
      List.Forall₂ (fun t t' =>
        t' = if isUnsettledCandidate "USD" 5 t then
          { t with settlement_id := some 9, updated_at := 5 } else t)
        c2WitnessDb.transactions (settle_asset c2WitnessDb "USD" 5 9).2.transactions) :=
  ⟨by decide, by decide, settle_asset_aggregates_exactly c2WitnessDb "USD" 5 9
    (by decide) (by decide)⟩

/-- After a `settle_asset` run whose cut-off covers every eligible row, no
row of the asset remains eligible. -/
theorem get_unsettled_after_settle (db : Db) (a : String) (t1 t2 id1 : Nat)
    (hnodup : nodupIds db)
    (h : ∀ t ∈ db.transactions, t.status = "completed" → t.settlement_id = none →
      t.asset_code = a → t.updated_at ≤ t1) :
    get_unsettled_transactions (settle_asset db a t1 id1).2 a t2 = [] := by
  have hcand : ∀ t ∈ db.transactions, isUnsettledCandidate a t2 t = true →
      isUnsettledCandidate a t1 t = true := by
    intro t ht hc
    simp only [isUnsettledCandidate, Bool.and_eq_true, beq_iff_eq, decide_eq_true_eq] at hc ⊢
    exact ⟨⟨⟨hc.1.1.1, hc.1.1.2⟩, hc.1.2⟩, h t ht hc.1.1.1 hc.1.1.2 hc.1.2⟩
  unfold get_unsettled_transactions
  rw [List.filter_eq_nil_iff]
  intro t' ht'
  rw [settle_asset_snd_transactions] at ht'
  by_cases he : (get_unsettled_transactions db a t1).isEmpty
  · rw [if_pos he] at ht'
    intro hc2
    have hc1 := hcand t' ht' hc2
    have : t' ∈ get_unsettled_transactions db a t1 :=
      List.mem_filter.mpr ⟨ht', hc1⟩
    rw [List.isEmpty_iff.mp he] at this
    cases this
  · rw [if_neg he] at ht'
    obtain ⟨t, ht, rfl⟩ := List.mem_map.mp ht'
    by_cases hin : t.id ∈ (get_unsettled_transactions db a t1).map (fun u => u.id)
    · rw [if_pos hin]
      simp [isUnsettledCandidate]
    · rw [if_neg hin]
      intro hc2
      exact hin ((mem_unsettled_ids_iff db a t1 hnodup t ht).mpr (hcand t ht hc2))

/-- C8 (confirmed): with no eligible transaction for the asset,
`settle_asset` rolls back and returns `none` with the store unchanged; and
when the first run's cut-off covers every eligible row (timestamps are not in
the future), re-running `settle_asset` for the same asset immediately after a
run is a no-op returning `none` — asset-level idempotence. -/
theorem settle_asset_idempotent_no_op (db : Db) (a : String) (t1 t2 id1 id2 : Nat)
    (hnodup : nodupIds db)
    (h : ∀ t ∈ db.transactions, t.status = "completed" → t.settlement_id = none →
      t.asset_code = a → t.updated_at ≤ t1) :
    (get_unsettled_transactions db a t1 = [] → settle_asset db a t1 id1 = (none, db)) ∧
    settle_asset (settle_asset db a t1 id1).2 a t2 id2 =
      (none, (settle_asset db a t1 id1).2) := by
  refine ⟨fun he => settle_asset_empty_rollback db a t1 id1 he, ?_⟩
  exact settle_asset_empty_rollback _ a t2 id2
    (get_unsettled_after_settle db a t1 t2 id1 hnodup h)

/-- Witness for C8 at a concrete store. -/
theorem settle_asset_idempotent_no_op_witness :
    nodupIds c2WitnessDb ∧
    (∀ t ∈ c2WitnessDb.transactions, t.status = "completed" → t.settlement_id = none →
      t.asset_code = "USD" → t.updated_at ≤ 5) ∧
    ((get_unsettled_transactions c2WitnessDb "USD" 5 = [] →
        settle_asset c2WitnessDb "USD" 5 11 = (none, c2WitnessDb)) ∧
      settle_asset (settle_asset c2WitnessDb "USD" 5 11).2 "USD" 6 12 =
        (none, (settle_asset c2WitnessDb "USD" 5 11).2)) :=
  ⟨by decide, by decide,
    settle_asset_idempotent_no_op c2WitnessDb "USD" 5 6 11 12 (by decide) (by decide)⟩

/-- Sanity check tying the race decomposition to the source function: one
`check_idempotency` session run to completion without interference (its
`GET` step followed by its branch/`SET` step) computes exactly
`check_idempotency`. -/
theorem check_idempotency_two_steps (c : Cache) (key : String) :
    sessionStep (sessionStep c key .ready).2 key (sessionStep c key .ready).1 =
      (SessionState.finished (check_idempotency c key).1, (check_idempotency c key).2) := by
  cases h : cacheGet c (idempotencyKey key) with
  | none => simp [sessionStep, check_idempotency, h]
  | some v => cases v <;> simp [sessionStep, check_idempotency, h]

/-- C3 (code bug): `check_idempotency` reads the key with `GET` and only then
writes the `PROCESSING` marker with a separate `SET`; in the interleaving
where both racing callers perform their `GET` before either performs its
`SET`, both observe `New` — the claimed atomic check-and-set exclusivity
(exactly one caller observes `New`) fails. -/
theorem check_idempotency_race_both_new :
    (runRace "key-1" [true, false, true, false] ([], .ready, .ready)).2.1 =
        SessionState.finished IdempotencyStatus.New ∧
    (runRace "key-1" [true, false, true, false] ([], .ready, .ready)).2.2 =
        SessionState.finished IdempotencyStatus.New := by
  decide

/-- C4 (counterexample): with a replica configured and the most recent probe
reporting it unhealthy, `get_pool(Read)` still returns the replica, not the
primary — `get_pool` consults no health state at all. -/
theorem get_pool_read_ignores_probe_counterexample :
    (health_check { replica := some () } true false).replica = false ∧
    get_pool { replica := some () } QueryIntent.Read = PoolId.replica ∧
    get_pool { replica := some () } QueryIntent.Read ≠ PoolId.primary := by
  decide

/-- C4 (amended): write intent always routes to the primary; read intent
routes to the primary exactly when no replica is configured, and to the
replica exactly when one is configured — independent of any probe result. -/
theorem get_pool_routing_amended (m : PoolManager) :
    get_pool m QueryIntent.Write = PoolId.primary ∧
    (get_pool m QueryIntent.Read = PoolId.primary ↔ m.replica = none) ∧
    (get_pool m QueryIntent.Read = PoolId.replica ↔ m.replica.isSome) := by
  obtain ⟨r⟩ := m
  cases r <;> simp [get_pool]

/-- C5 (code bug): the three statements of `requeue_dlq` run without an
enclosing store transaction, so the state after the status update and before
the delete is durable: there the transaction is already back to `pending`
while its dead-letter entry still exists — the two effects are not atomic. -/
theorem requeue_dlq_nonatomic_intermediate_state :
    (lookupTx (requeue_dlq_steps dlqFixtureDb 10 5 2) 1).map (fun t => t.status) =
        some "pending" ∧
    (requeue_dlq_steps dlqFixtureDb 10 5 2).transaction_dlq = [dlqFixtureEntry] ∧
    (requeue_dlq_steps dlqFixtureDb 10 5 3).transaction_dlq = [] := by
  decide

/-- C6 (code bug): the `/callback` ingestion handler parses the amount but
never checks positivity, so the payload with amount string `"0"` is accepted
and a transaction row with `amount = 0` is persisted; the parallel validated
webhook path rejects the very same input with a validation error. -/
theorem callback_inserts_zero_amount :
    callback emptyDb zeroAmountPayload 1 100 = Except.ok (zeroInsertedTx, zeroInsertedDb) ∧
    zeroInsertedTx.amount = 0 ∧
    zeroInsertedDb.transactions = [zeroInsertedTx] ∧
    validate_webhook_payload zeroWebhookReq =
      Except.error (AppError.Validation "amount: must be greater than zero") := by
  decide

/-- C9 (counterexample): requeue of an unknown dead-letter id surfaces
through the handler as `AppError::DatabaseError` — carrying the same stable
error code and HTTP status as a transient backend failure, and not the
`NotFound` variant the claim requires. -/
theorem requeue_unknown_id_not_distinguishable_counterexample :
    requeue_dlq_handler noDlqDb 99 5 =
        Except.error (AppError.DatabaseError (sqlxErrorMessage .RowNotFound)) ∧
    (AppError.DatabaseError (sqlxErrorMessage .RowNotFound)).code =
        (AppError.DatabaseError "connection reset by peer").code ∧
    (AppError.DatabaseError (sqlxErrorMessage .RowNotFound)).httpStatus =
        (AppError.DatabaseError "connection reset by peer").httpStatus ∧
    (AppError.DatabaseError (sqlxErrorMessage .RowNotFound)).code ≠
        (AppError.NotFound "DLQ entry not found").code := by
  decide

/-- C9 (amended): requeue of an id with no dead-letter entry fails on the
first statement with the store-layer row-not-found error and leaves both
tables unchanged at every step; the HTTP handler, however, surfaces it as a
generic `DatabaseError` rather than a distinguishable `NotFound`. -/
theorem requeue_unknown_id_amended (db : Db) (dlq_id now : Nat)
    (h : requeue_fetch_transaction_id db dlq_id = none) :
    requeue_dlq db dlq_id now = .error .RowNotFound ∧
    (∀ k, requeue_dlq_steps db dlq_id now k = db) ∧
    requeue_dlq_handler db dlq_id now =
      .error (.DatabaseError (sqlxErrorMessage .RowNotFound)) := by
  refine ⟨?_, ?_, ?_⟩ <;>
    simp [requeue_dlq, requeue_dlq_steps, requeue_dlq_handler, h]

/-- Witness for C9's amended theorem at a concrete store and id. -/
theorem requeue_unknown_id_amended_witness :
    requeue_fetch_transaction_id noDlqDb 99 = none ∧
    (requeue_dlq noDlqDb 99 5 = .error .RowNotFound ∧
     (∀ k, requeue_dlq_steps noDlqDb 99 5 k = noDlqDb) ∧
     requeue_dlq_handler noDlqDb 99 5 =
       .error (.DatabaseError (sqlxErrorMessage .RowNotFound))) :=
  ⟨by decide, requeue_unknown_id_amended noDlqDb 99 5 (by decide)⟩

/-- C10 (confirmed): when the idempotency store is unreachable — the check
call returns an error — a request carrying an idempotency key is processed
normally by the inner handler (fail open) and no marker is written. -/
theorem idempotency_middleware_fails_open (c : Cache) (key : String)
    (next : Unit → Response) :
    idempotency_middleware false c (some key) next = (next (), c) := by
  simp [idempotency_middleware]

/-- Transitivity of the composite-key order. -/
theorem keyLt_trans {a b c : Nat × Nat} (h1 : keyLt a b) (h2 : keyLt b c) : keyLt a c := by
  unfold keyLt at *
  omega

/-- Irreflexivity of the composite-key order. -/
theorem keyLt_irrefl (a : Nat × Nat) : ¬ keyLt a a := by
  unfold keyLt
  omega

/-- Asymmetry of the composite-key order. -/
theorem keyLt_asymm {a b : Nat × Nat} (h : keyLt a b) : ¬ keyLt b a := by
  unfold keyLt at *
  omega

/-- A `descLe`-sorted list with pairwise-distinct ids is strictly sorted:
the composite key breaks `created_at` ties by id. -/
theorem sorted_descLt_of_nodup (l : List Transaction)
    (hs : List.Sorted descLe l) (hn : (l.map (fun t => t.id)).Nodup) :
    l.Pairwise descLt := by
  have hne : l.Pairwise (fun t t' : Transaction => t.id ≠ t'.id) := by
    rw [← List.pairwise_map]
    exact hn
  have hcomb := List.Pairwise.and hs hne
  refine hcomb.imp ?_
  intro a b hab
  obtain ⟨hle, hid⟩ := hab
  rcases hle with h | h
  · exact h
  · exact absurd (congrArg Prod.snd h).symm hid

/-- Sorting is a permutation of the input rows. -/
theorem sortDesc_perm (l : List Transaction) : List.Perm (sortDescCreatedId l) l :=
  List.perm_insertionSort descLe l

/-- Sorting orders rows by the composite key, newest first. -/
theorem sortDesc_sorted (l : List Transaction) : List.Sorted descLe (sortDescCreatedId l) :=
  List.sorted_insertionSort descLe l

/-- Sorting preserves distinctness of row ids. -/
theorem sortDesc_nodup_ids (l : List Transaction) (hn : (l.map (fun t => t.id)).Nodup) :
    ((sortDescCreatedId l).map (fun t => t.id)).Nodup :=
  ((sortDesc_perm l).map _).nodup_iff.mpr hn

/-- With distinct ids, the sorted order is strict. -/
theorem sortDesc_pairwise_descLt (l : List Transaction)
    (hn : (l.map (fun t => t.id)).Nodup) :
    (sortDescCreatedId l).Pairwise descLt :=
  sorted_descLt_of_nodup _ (sortDesc_sorted l) (sortDesc_nodup_ids l hn)

/-- With distinct ids, sorting commutes with filtering: both sides are
strictly sorted permutations of the same rows, hence equal. -/
theorem sortDesc_filter (l : List Transaction) (hn : (l.map (fun t => t.id)).Nodup)
    (p : Transaction → Bool) :
    sortDescCreatedId (l.filter p) = (sortDescCreatedId l).filter p := by
  have hsub : ((l.filter p).map (fun t => t.id)).Nodup :=
    List.Nodup.sublist ((List.filter_sublist l).map _) hn
  apply List.eq_of_perm_of_sorted (r := descLt)
  · exact (sortDesc_perm _).trans ((sortDesc_perm l).symm.filter p)
  · exact sortDesc_pairwise_descLt _ hsub
  · exact List.Pairwise.filter p (sortDesc_pairwise_descLt l hn)

/-- The first-page query is the sorted prefix. -/
theorem list_transactions_forward_none (db : Db) (k : Nat) :
    list_transactions db k none false = (sortDescCreatedId db.transactions).take k := rfl

/-- A forward page with a cursor is a prefix of the sorted rows strictly
older than the cursor. -/
theorem list_transactions_forward_some (db : Db) (k : Nat) (c : Nat × Nat)
    (hn : nodupIds db) :
    list_transactions db k (some c) false =
      ((sortDescCreatedId db.transactions).filter
        (fun t => decide (keyLt (txKey t) c))).take k := by
  have h0 : list_transactions db k (some c) false =
      (sortDescCreatedId (db.transactions.filter
        (fun t => decide (keyLt (txKey t) c)))).take k := rfl
  rw [h0, sortDesc_filter db.transactions hn]

/-- On a strictly sorted list, the rows strictly below the last element of
the length-`limit` prefix are exactly the rows after that prefix. -/
theorem filter_lt_last_take (M : List Transaction) (limit : Nat)
    (hp : M.Pairwise descLt) (hne : M.take limit ≠ []) :
    M.filter (fun t => decide (keyLt (txKey t) (txKey ((M.take limit).getLast hne)))) =
      M.drop limit := by
  have hp' : (M.take limit ++ M.drop limit).Pairwise descLt := by
    rw [List.take_append_drop]
    exact hp
  obtain ⟨pA, pB, hcross⟩ := List.pairwise_append.mp hp'
  have hlastmem : (M.take limit).getLast hne ∈ M.take limit := List.getLast_mem hne
  have hB : (M.drop limit).filter
      (fun t => decide (keyLt (txKey t) (txKey ((M.take limit).getLast hne)))) =
      M.drop limit := by
    rw [List.filter_eq_self]
    intro b hb
    exact decide_eq_true (hcross _ hlastmem b hb)
  have hA : (M.take limit).filter
      (fun t => decide (keyLt (txKey t) (txKey ((M.take limit).getLast hne)))) = [] := by
    rw [List.filter_eq_nil_iff]
    intro a ha
    have hsplitA : M.take limit = (M.take limit).dropLast ++ [(M.take limit).getLast hne] :=
      (List.dropLast_concat_getLast hne).symm
    have pA' : ((M.take limit).dropLast ++ [(M.take limit).getLast hne]).Pairwise descLt := by
      rw [← hsplitA]
      exact pA
    obtain ⟨_, _, hcrossA⟩ := List.pairwise_append.mp pA'
    rw [hsplitA] at ha
    rcases List.mem_append.mp ha with h | h
    · have hlt := hcrossA a h _ (List.mem_singleton_self _)
      simp only [decide_eq_true_eq]
      exact keyLt_asymm hlt
    · rw [List.mem_singleton.mp h]
      simp only [decide_eq_true_eq]
      exact keyLt_irrefl _
  have hsplitM : M.filter
      (fun t => decide (keyLt (txKey t) (txKey ((M.take limit).getLast hne)))) =
      (M.take limit ++ M.drop limit).filter
        (fun t => decide (keyLt (txKey t) (txKey ((M.take limit).getLast hne)))) := by
    rw [List.take_append_drop]
  rw [hsplitM, List.filter_append, hA, hB, List.nil_append]

/-- Full forward traversal from a cursor: with enough fuel, the client
sees exactly the sorted rows strictly older than the cursor. -/
theorem traverse_pages_forward_some_eq (db : Db) (limit : Nat) (hl : 1 ≤ limit)
    (hn : nodupIds db) :
    ∀ (fuel : Nat) (c : Nat × Nat),
      ((sortDescCreatedId db.transactions).filter
          (fun t => decide (keyLt (txKey t) c))).length ≤ fuel →
      traverse_pages db limit fuel (some c) false =
        (sortDescCreatedId db.transactions).filter (fun t => decide (keyLt (txKey t) c)) := by
  intro fuel
  induction fuel with
  | zero =>
    intro c h
    have : (sortDescCreatedId db.transactions).filter
        (fun t => decide (keyLt (txKey t) c)) = [] := by
      cases hx : (sortDescCreatedId db.transactions).filter
          (fun t => decide (keyLt (txKey t) c)) with
      | nil => rfl
      | cons y ys =>
        rw [hx] at h
        simp at h
    rw [this]
    rfl
  | succ fuel ih =>
    intro c hfuel
    have hfetch : list_transactions db (limit + 1) (some c) false =
        ((sortDescCreatedId db.transactions).filter
          (fun t => decide (keyLt (txKey t) c))).take (limit + 1) :=
      list_transactions_forward_some db (limit + 1) c hn
    set M := (sortDescCreatedId db.transactions).filter
      (fun t => decide (keyLt (txKey t) c)) with hMdef
    have hpM : M.Pairwise descLt :=
      List.Pairwise.filter _ (sortDesc_pairwise_descLt db.transactions hn)
    by_cases hmore : limit < M.length
    · have htake_len : (M.take (limit + 1)).length = limit + 1 := by
        rw [List.length_take]
        omega
      have hrows : (M.take (limit + 1)).take limit = M.take limit := by
        rw [List.take_take]
        congr 1
        omega
      have hne : M.take limit ≠ [] := by
        intro hnil
        have h0 : (M.take limit).length = 0 := by
          rw [hnil]
          rfl
        rw [List.length_take] at h0
        omega
      have hlast : (M.take limit).getLast? = some ((M.take limit).getLast hne) :=
        List.getLast?_eq_getLast _ hne
      have hlast_mem_M : (M.take limit).getLast hne ∈ M :=
        (List.take_sublist limit M).subset (List.getLast_mem hne)
      have hlast_lt_c : keyLt (txKey ((M.take limit).getLast hne)) c := by
        have hmem : (M.take limit).getLast hne ∈
            (sortDescCreatedId db.transactions).filter
              (fun t => decide (keyLt (txKey t) c)) := hlast_mem_M
        have := (List.mem_filter.mp hmem).2
        simpa using this
      have h1 : M.filter
          (fun t => decide (keyLt (txKey t) (txKey ((M.take limit).getLast hne)))) =
          (sortDescCreatedId db.transactions).filter (fun t =>
            decide (keyLt (txKey t) (txKey ((M.take limit).getLast hne))) &&
            decide (keyLt (txKey t) c)) :=
        List.filter_filter _ _
      have h2 : (sortDescCreatedId db.transactions).filter (fun t =>
            decide (keyLt (txKey t) (txKey ((M.take limit).getLast hne))) &&
            decide (keyLt (txKey t) c)) =
          (sortDescCreatedId db.transactions).filter (fun t =>
            decide (keyLt (txKey t) (txKey ((M.take limit).getLast hne)))) := by
        apply List.filter_congr
        intro t _
        by_cases hq : keyLt (txKey t) (txKey ((M.take limit).getLast hne))
        · simp [hq, keyLt_trans hq hlast_lt_c]
        · simp [hq]
      have hfilter_eq : (sortDescCreatedId db.transactions).filter
          (fun t => decide (keyLt (txKey t) (txKey ((M.take limit).getLast hne)))) =
          M.drop limit := by
        rw [← h2, ← h1]
        exact filter_lt_last_take M limit hpM hne
      have hdrop_len : (M.drop limit).length ≤ fuel := by
        have h3 : M.length ≤ fuel + 1 := hfuel
        have h4 : 1 ≤ limit := hl
        rw [List.length_drop]
        omega
      have hgt : limit + 1 > limit := Nat.lt_succ_self limit
      have hpage : list_transactions_page db limit (some c) false =
          { rows := M.take limit, has_more := true,
            next_cursor := some (txKey ((M.take limit).getLast hne)) } := by
        simp only [list_transactions_page]
        rw [hfetch, htake_len, if_pos hgt, hrows, hlast]
        rw [decide_eq_true hgt]
        rfl
      have hunfold : traverse_pages db limit (fuel + 1) (some c) false =
          (if (list_transactions_page db limit (some c) false).has_more then
            (list_transactions_page db limit (some c) false).rows ++
              traverse_pages db limit fuel
                (list_transactions_page db limit (some c) false).next_cursor false
          else (list_transactions_page db limit (some c) false).rows) := rfl
      rw [hunfold, hpage]
      rw [if_pos rfl]
      rw [ih (txKey ((M.take limit).getLast hne)) (by rw [hfilter_eq]; exact hdrop_len)]
      rw [hfilter_eq]
      exact List.take_append_drop limit M
    · have hlen_le : M.length ≤ limit := by omega
      have hfetch_all : M.take (limit + 1) = M := List.take_of_length_le (by omega)
      have hngt : ¬ (M.length > limit) := by omega
      have hpage : list_transactions_page db limit (some c) false =
          { rows := M, has_more := false, next_cursor := M.getLast?.map txKey } := by
        simp only [list_transactions_page]
        rw [hfetch, hfetch_all, if_neg hngt, decide_eq_false hngt]
      have hunfold : traverse_pages db limit (fuel + 1) (some c) false =
          (if (list_transactions_page db limit (some c) false).has_more then
            (list_transactions_page db limit (some c) false).rows ++
              traverse_pages db limit fuel
                (list_transactions_page db limit (some c) false).next_cursor false
          else (list_transactions_page db limit (some c) false).rows) := rfl
      rw [hunfold, hpage]
      simp

/-- C7 (amended): a full forward traversal — first page without a cursor,
then following the handler's `next_cursor` while `has_more` — visits every
stored transaction exactly once: the concatenation of pages is a permutation
of the table and its ids contain no duplicate. This covers rows sharing a
`created_at`, since the composite key breaks ties by id. -/
theorem forward_traversal_exactly_once (db : Db) (limit fuel : Nat)
    (hl : 1 ≤ limit) (hn : nodupIds db) (hf : db.transactions.length ≤ fuel) :
    List.Perm (traverse_pages db limit fuel none false) db.transactions ∧
    ((traverse_pages db limit fuel none false).map (fun t => t.id)).Nodup := by
  have hLlen : (sortDescCreatedId db.transactions).length = db.transactions.length :=
    (sortDesc_perm db.transactions).length_eq
  have htrav : traverse_pages db limit fuel none false = sortDescCreatedId db.transactions := by
    cases fuel with
    | zero =>
      have hnil : db.transactions = [] := List.length_eq_zero.mp (Nat.le_zero.mp hf)
      have hLnil : sortDescCreatedId db.transactions = [] := by
        have h0 : (sortDescCreatedId db.transactions).length = 0 := by
          rw [hLlen, hnil]
          rfl
        exact List.length_eq_zero.mp h0
      rw [hLnil]
      rfl
    | succ fuel =>
      have hfetch : list_transactions db (limit + 1) none false =
          (sortDescCreatedId db.transactions).take (limit + 1) :=
        list_transactions_forward_none db (limit + 1)
      set L := sortDescCreatedId db.transactions with hLdef
      have hpL : L.Pairwise descLt := sortDesc_pairwise_descLt db.transactions hn
      by_cases hmore : limit < L.length
      · have htake_len : (L.take (limit + 1)).length = limit + 1 := by
          rw [List.length_take]
          omega
        have hrows : (L.take (limit + 1)).take limit = L.take limit := by
          rw [List.take_take]
          congr 1
          omega
        have hne : L.take limit ≠ [] := by
          intro hnil
          have h0 : (L.take limit).length = 0 := by
            rw [hnil]
            rfl
          rw [List.length_take] at h0
          omega
        have hlast : (L.take limit).getLast? = some ((L.take limit).getLast hne) :=
          List.getLast?_eq_getLast _ hne
        have hfilter_eq : L.filter
            (fun t => decide (keyLt (txKey t) (txKey ((L.take limit).getLast hne)))) =
            L.drop limit := filter_lt_last_take L limit hpL hne
        have hdrop_len : (L.drop limit).length ≤ fuel := by
          have h3 : L.length ≤ fuel + 1 := by
            rw [hLlen]
            exact hf
          have h4 : 1 ≤ limit := hl
          rw [List.length_drop]
          omega
        have hgt : limit + 1 > limit := Nat.lt_succ_self limit
        have hpage : list_transactions_page db limit none false =
            { rows := L.take limit, has_more := true,
              next_cursor := some (txKey ((L.take limit).getLast hne)) } := by
          simp only [list_transactions_page]
          rw [hfetch, htake_len, if_pos hgt, hrows, hlast]
          rw [decide_eq_true hgt]
          rfl
        have hunfold : traverse_pages db limit (fuel + 1) none false =
            (if (list_transactions_page db limit none false).has_more then
              (list_transactions_page db limit none false).rows ++
                traverse_pages db limit fuel
                  (list_transactions_page db limit none false).next_cursor false
            else (list_transactions_page db limit none false).rows) := rfl
        rw [hunfold, hpage]
        rw [if_pos rfl]
        rw [traverse_pages_forward_some_eq db limit hl hn fuel
          (txKey ((L.take limit).getLast hne)) (by rw [hfilter_eq]; exact hdrop_len)]
        rw [hfilter_eq]
        exact List.take_append_drop limit L
      · have hfetch_all : L.take (limit + 1) = L := List.take_of_length_le (by omega)
        have hngt : ¬ (L.length > limit) := by omega
        have hpage : list_transactions_page db limit none false =
            { rows := L, has_more := false, next_cursor := L.getLast?.map txKey } := by
          simp only [list_transactions_page]
          rw [hfetch, hfetch_all, if_neg hngt, decide_eq_false hngt]
        have hunfold : traverse_pages db limit (fuel + 1) none false =
            (if (list_transactions_page db limit none false).has_more then
              (list_transactions_page db limit none false).rows ++
                traverse_pages db limit fuel
                  (list_transactions_page db limit none false).next_cursor false
            else (list_transactions_page db limit none false).rows) := rfl
        rw [hunfold, hpage]
        simp
  rw [htrav]
  exact ⟨sortDesc_perm db.transactions, sortDesc_nodup_ids db.transactions hn⟩

/-- Witness for C7's amended theorem: a forward traversal of the five-row
store with page size 2. -/
theorem forward_traversal_exactly_once_witness :
    1 ≤ 2 ∧ nodupIds pagingDb ∧ pagingDb.transactions.length ≤ 10 ∧
    (List.Perm (traverse_pages pagingDb 2 10 none false) pagingDb.transactions ∧
      ((traverse_pages pagingDb 2 10 none false).map (fun t => t.id)).Nodup) :=
  ⟨by decide, by decide, by decide,
    forward_traversal_exactly_once pagingDb 2 10 (by decide) (by decide) (by decide)⟩

/-- C7 (counterexample): the backward traversal is broken — following the
handler's `next_cursor` backward over five rows with page size 2 yields ids
`[3, 2, 5, 4, 5]`: the row with id 5 is visited twice and the row with id 1
is never visited, so the backward direction has both duplicates and gaps. -/
theorem backward_traversal_duplicates_counterexample :
    (traverse_pages pagingDb 2 10 none true).map (fun t => t.id) = [3, 2, 5, 4, 5] ∧
    ¬ ((traverse_pages pagingDb 2 10 none true).map (fun t => t.id)).Nodup ∧
    1 ∈ pagingDb.transactions.map (fun t => t.id) ∧
    1 ∉ (traverse_pages pagingDb 2 10 none true).map (fun t => t.id) := by
  decide

end SynapseCore
